import Mathlib

/-!
Verification of the SimpleCoverage repository (src/sc_class.py, src/scmap.py).

Shallow embedding conventions:
* Python `str` values that are computed on are modelled as `List Char`
  (identifiers that are only carried around stay `String`).
* Python unbounded `int` is modelled as `Int` (or `Nat` where the source
  value is a list index / length and the claims restrict to non-negative
  values).
* Python floats are modelled exactly as rationals: the two `f"{x:.2f}"` /
  `f"{x:.2%}"` renderings are modelled by exact round-half-even rendering
  of the rational numerator/denominator pair (`fmtDiv2`).
* Fallible code returns `Except`/a `Bool` success flag; an uncaught Python
  exception that leaves an object partially mutated is modelled by
  returning the partial state together with a `false` flag.
-/

set_option maxRecDepth 8000

namespace SimpleCoverage

/-- Models Python `s.split(sep)` for a one-character separator `p`, and
`re.split` over a character class: splits at every matching character,
keeping empty tokens (so `""` yields `[[]]`, like Python's `[""]`). -/
def splitOnPred (p : Char → Bool) : List Char → List (List Char)
  | [] => [[]]
  | c :: rest =>
    if p c then [] :: splitOnPred p rest
    else
      match splitOnPred p rest with
      | [] => [[c]]
      | t :: ts => (c :: t) :: ts

/-- `line.split("\t")` from `parse_paf`. -/
def splitTab (l : List Char) : List (List Char) :=
  splitOnPred (fun c => c == '\t') l

/-- Digit-string value used by `pyInt?`. `none` when empty or any
non-digit character occurs. -/
def digitsVal (l : List Char) : Option Nat :=
  if l = [] then none
  else
    l.foldl
      (fun acc c =>
        match acc with
        | none => none
        | some n => if c.isDigit then some (n * 10 + (c.toNat - 48)) else none)
      (some 0)

/-- Models Python `int(s)` on the forms that occur in this program: an
optional sign followed by decimal digits; `none` models the `ValueError`
raised otherwise.  (Python `int` additionally tolerates surrounding
whitespace and underscores between digits; no claim depends on those.) -/
def pyInt? (l : List Char) : Option Int :=
  match l with
  | '-' :: rest => (digitsVal rest).map (fun n => -(n : Int))
  | '+' :: rest => (digitsVal rest).map (fun n => (n : Int))
  | _ => (digitsVal l).map (fun n => (n : Int))

/-- `map_mismatches` from src/scmap.py: split the cs string on `:` and `*`
(`re.split(r'[:*]', cs_str)`); for each token, `"1" * int(element)` when
the token parses as an integer, else (`ValueError` caught) `"0"`. -/
def map_mismatches (cs_str : List Char) : List (List Char) :=
  (splitOnPred (fun c => c == ':' || c == '*') cs_str).map
    (fun element =>
      match pyInt? element with
      | some n => List.replicate n.toNat '1'
      | none => ['0'])

/-- `re.search(r'[+\-~]', cs_str)` from `parse_paf`, as a Bool. -/
def hasIndel (cs : List Char) : Bool :=
  cs.any (fun c => c == '+' || c == '-' || c == '~')

/-- The `Match` class from src/sc_class.py.  The Python attribute `end` is
a Lean keyword and is called `stop` here; `align_seq` is the field set by
`__init__`. -/
structure Match where
  seq_id : String
  seq : List Char
  start : Nat
  stop : Nat
  mismatches : List (List Char)
  align_seq : List Char
deriving Repr, DecidableEq

/-- `Match.__init__(seq_id, seq, start, end, target_len, mismatches)`:
stores the fields and computes
`align_seq = ["-"] * start + list(seq) + ["-"] * (target_len - end)`
(Python multiplication of a list by a negative int gives `[]`, exactly as
truncated `Nat` subtraction does here). -/
def Match.init (seq_id : String) (seq : List Char) (start stop target_len : Nat)
    (mismatches : List (List Char)) : Match :=
  { seq_id := seq_id
    seq := seq
    start := start
    stop := stop
    mismatches := mismatches
    align_seq :=
      List.replicate start '-' ++ seq ++ List.replicate (target_len - stop) '-' }

/-- The `Target` class from src/sc_class.py. -/
structure Target where
  id : String
  name : String
  seq : List Char
  length : Nat
  coverage_map : List Nat
  «matches» : List Match
deriving Repr, DecidableEq

/-- `Target.__init__(record)`: id/name/seq from the SeqRecord,
`length = len(record.seq)`, `coverage_map = [0] * len(record.seq)`,
`matches = []`. -/
def Target.init (id name : String) (seq : List Char) : Target :=
  { id := id
    name := name
    seq := seq
    length := seq.length
    coverage_map := List.replicate seq.length 0
    «matches» := [] }

/-- One pass of `for i in range(start, end): coverage_map[i] += 1`, with
`fuel` = the number of remaining loop iterations (`end - start` at entry,
which is the length of the Python `range`).  At the first index that is
out of bounds Python raises `IndexError`; that is modelled by returning
the list mutated so far together with `false`. -/
def bumpFrom (cm : List Nat) (i : Nat) : Nat → List Nat × Bool
  | 0 => (cm, true)
  | fuel + 1 =>
    if i < cm.length then bumpFrom (cm.set i (cm.getD i 0 + 1)) (i + 1) fuel
    else (cm, false)

/-- `Target.add_match` from src/sc_class.py: increment
`coverage_map[i]` for `i in range(match.start, match.end)` and then append
the match.  The `Bool` is the success flag: `false` models the
`IndexError` raised mid-loop, in which case (as in Python) the increments
already performed persist and the match is NOT appended. -/
def Target.add_match (t : Target) (m : Match) : Target × Bool :=
  let r := bumpFrom t.coverage_map m.start (m.stop - m.start)
  if r.2 then
    ({ t with coverage_map := r.1, «matches» := t.«matches» ++ [m] }, true)
  else
    ({ t with coverage_map := r.1 }, false)

/-- `Target.add_matches` from src/sc_class.py:
`for match in matches: self.add_match(match)` — an uncaught `IndexError`
aborts the loop, leaving the state mutated so far. -/
def Target.add_matches (t : Target) : List Match → Target × Bool
  | [] => (t, true)
  | m :: ms =>
    let r := t.add_match m
    if r.2 then r.1.add_matches ms else (r.1, false)

/-- Adding matches one at a time by separate `add_match` calls (keeping
only the resulting state, as Python's in-place mutation does). -/
def applyMatches (t : Target) (ms : List Match) : Target :=
  ms.foldl (fun t m => (t.add_match m).1) t

/-- The depth/matches correspondence invariant of the spec:
`depth[i] == count of matches m with m.target_start <= i < m.target_end`. -/
def depthOk (t : Target) : Prop :=
  ∀ i, t.coverage_map.getD i 0 =
    t.«matches».countP (fun m => decide (m.start ≤ i ∧ i < m.stop))

/-- Round-half-even of the rational `a / b` scaled to hundredths
(`b > 0` expected), i.e. the integer `n` with `n / 100` closest to
`a / b`, ties to even. -/
def rheHundredths (a b : Int) : Int :=
  let q := (100 * a).ediv b
  let r := (100 * a).emod b
  if 2 * r < b then q
  else if b < 2 * r then q + 1
  else if q.emod 2 = 0 then q else q + 1

/-- Models Python `f"{a/b:.2f}"` for non-negative `a` and positive `b`:
the exact rational `a / b` rendered with two decimal places,
round-half-even.  (Python formats the IEEE double nearest to `a / b`;
this model renders the exact rational instead.) -/
def fmtDiv2 (a b : Int) : String :=
  let n := rheHundredths a b
  let whole := n.ediv 100
  let cents := n.emod 100
  toString whole ++ "." ++ (if cents < 10 then "0" ++ toString cents else toString cents)

/-- `Target.print_coverage` from src/sc_class.py, as the single output
line it prints: counts `bp_with_coverage` with the source's loop, then
renders `f"Total coverage for {id}: {bp}/{length} bp covered "
f"({bp_pct:.2%}), Avg: {avg:.2f}"` where `bp_pct = bp / self.length`
(the `.2%` format shows `100 * bp_pct` with two decimals and a `%`) and
`avg = sum(coverage_map) / len(coverage_map)`. -/
def Target.print_coverage (t : Target) : String :=
  let bp_with_coverage : Nat :=
    t.coverage_map.foldl (fun acc i => if i > 0 then acc + 1 else acc) 0
  "Total coverage for " ++ t.id ++ ": " ++ toString bp_with_coverage ++ "/" ++
    toString t.length ++ " bp covered (" ++
    fmtDiv2 (100 * (bp_with_coverage : Int)) (t.length : Int) ++ "%), Avg: " ++
    fmtDiv2 ((t.coverage_map.sum : Int)) ((t.coverage_map.length : Int))

/-- Python slice `l[i:stop]` for `0 ≤ i`, `0 ≤ stop`. -/
def sliceList {α : Type} (l : List α) (i stop : Nat) : List α :=
  (l.take stop).drop i

/-- The inner `for match in self.matches` loop of `print_coverage_map`:
slices each match's `align_seq`, skips slices that are all `"-"`
(`continue`), prints the rest. -/
def matchRows (ms : List Match) (i stop : Nat) : List String :=
  match ms with
  | [] => []
  | m :: rest =>
    if (sliceList m.align_seq i stop).all (fun c => c == '-') then
      matchRows rest i stop
    else
      String.mk (sliceList m.align_seq i stop) :: matchRows rest i stop

/-- One block of `print_coverage_map`: the contributing alignment rows,
then `coverage_str` (`"".join(str(i) for i in coverage_section)`), then
`target_seq_str + "\n"` — `print` of a string ending in `"\n"` emits the
row followed by a blank line, modelled as the trailing `""`. -/
def blockRows (t : Target) (i stop : Nat) : List String :=
  matchRows t.«matches» i stop ++
    [String.join ((sliceList t.coverage_map i stop).map (fun n => toString n)),
     String.mk (sliceList t.seq i stop),
     ""]

/-- The iteration space of `for i in range(0, len(coverage_map), columns)`
for `columns > 0`: block start offsets `0, columns, 2*columns, ...`. -/
def blockStarts (L c : Nat) : List Nat :=
  List.range' 0 ((L + c - 1) / c) c

/-- `Target.print_coverage_map` from src/sc_class.py as the list of lines
it prints: the header, then for each block (`col_end = min(i + columns,
len(coverage_map))`) the block's rows. -/
def Target.print_coverage_map (t : Target) (columns : Nat) : List String :=
  ("Coverage map for target " ++ t.id ++ ":") ::
    ((blockStarts t.coverage_map.length columns).map
      (fun i => blockRows t i (min (i + columns) t.coverage_map.length))).flatten

/-- `ROW_FAILURE_LIMIT` from src/scmap.py. -/
def ROW_FAILURE_LIMIT : Nat := 100

/-- `PAF_ROWS` from src/scmap.py. -/
def PAF_ROWS : Nat := 12

/-- The outcomes of processing one PAF line in `parse_paf`, in the order
the source checks them: column count, the five `int(...)` conversions
(an unparseable field raises an uncaught `ValueError`), the indel filter,
the full-query-mapping filter, the mismatch-count filter, acceptance. -/
inductive RowClass where
  | malformed
  | valueError
  | droppedIndel
  | droppedUnmapped
  | droppedMismatches
  | accepted (query_name target_name : List Char) (target_start target_end : Int)
      (cs_str : List Char)
deriving Repr, DecidableEq

/-- The per-line decision logic of `parse_paf` (src/scmap.py lines
200-236), applied to the already-split columns of one line.
`cs_str = cols[-1][5:]`; the mismatch filter drops the row when
`cs_str.count('*') > mismatch_limit` (`args.mismatches`). -/
def classify (mismatch_limit : Nat) (cols : List (List Char)) : RowClass :=
  if cols.length < PAF_ROWS then .malformed
  else
    match pyInt? (cols.getD 1 []), pyInt? (cols.getD 2 []), pyInt? (cols.getD 3 []),
        pyInt? (cols.getD 7 []), pyInt? (cols.getD 8 []) with
    | some query_len, some query_start, some query_end, some target_start,
      some target_end =>
      let cs_str := (cols.getLastD []).drop 5
      if hasIndel cs_str then .droppedIndel
      else if query_start ≠ 0 ∨ query_len ≠ query_end then .droppedUnmapped
      else if mismatch_limit < cs_str.count '*' then .droppedMismatches
      else .accepted (cols.getD 0 []) (cols.getD 5 []) target_start target_end cs_str
    | _, _, _, _, _ => .valueError

/-- Run-ending exceptions of `parse_paf`: the circuit-breaker
`ValueError` (which names the PAF file), an uncaught `ValueError` from an
`int(...)` conversion, and the `TypeError` raised on every accepted row
because `Match(query_name, target_start, target_end, cs_map)` passes 4
positional arguments to `Match.__init__`, which requires 6
(`seq_id, seq, start, end, target_len, mismatches`). -/
inductive ParseError where
  | tooManyFailed (paf_file : String)
  | valueError (row_index : Nat)
  | typeError (row_index : Nat)
deriving Repr, DecidableEq

/-- The loop state of `parse_paf`: `row_index`, `failed_rows`,
`dropped_rows`, and the targets dictionary (modelled as an association
list). -/
structure PafState where
  row_index : Nat
  failed_rows : Nat
  dropped_rows : Nat
  targets : List (String × Target)
deriving Repr, DecidableEq

/-- One iteration of the `for line in f.readlines()` loop of `parse_paf`:
`row_index += 1`; then the circuit breaker
(`if failed_rows > ROW_FAILURE_LIMIT: raise ValueError(...)` naming the
file); then split on tabs and classify.  A malformed row increments
`failed_rows` and continues; the three policy rejections increment
`dropped_rows` and continue; an accepted row computes
`cs_map = map_mismatches(cs_str)` and then crashes with `TypeError` at
`Match(query_name, target_start, target_end, cs_map)` (4 arguments
supplied, 6 required), before the `targets[target_name]` lookup and
before any `add_match`. -/
def parse_step (paf_file : String) (mismatch_limit : Nat) (st : PafState)
    (line : String) : Except ParseError PafState :=
  let st := { st with row_index := st.row_index + 1 }
  if st.failed_rows > ROW_FAILURE_LIMIT then
    .error (.tooManyFailed paf_file)
  else
    match classify mismatch_limit (splitTab line.toList) with
    | .malformed => .ok { st with failed_rows := st.failed_rows + 1 }
    | .valueError => .error (.valueError st.row_index)
    | .droppedIndel => .ok { st with dropped_rows := st.dropped_rows + 1 }
    | .droppedUnmapped => .ok { st with dropped_rows := st.dropped_rows + 1 }
    | .droppedMismatches => .ok { st with dropped_rows := st.dropped_rows + 1 }
    | .accepted _ _ _ _ _ => .error (.typeError st.row_index)

/-- The whole `for line in f.readlines()` loop. -/
def parse_lines (paf_file : String) (mismatch_limit : Nat) :
    PafState → List String → Except ParseError PafState
  | st, [] => .ok st
  | st, l :: ls =>
    match parse_step paf_file mismatch_limit st l with
    | .ok st2 => parse_lines paf_file mismatch_limit st2 ls
    | .error e => .error e

/-- `parse_paf` from src/scmap.py, on the file's lines (the file-existence
check and file handle are outside the model; `targets` is the
pre-registered targets dictionary). -/
def parse_paf (paf_file : String) (mismatch_limit : Nat)
    (targets : List (String × Target)) (lines : List String) :
    Except ParseError PafState :=
  parse_lines paf_file mismatch_limit
    { row_index := 0, failed_rows := 0, dropped_rows := 0, targets := targets }
    lines

/-! ### Helper lemmas -/

theorem set_getD (l : List Nat) (i j v : Nat) :
    (l.set i v).getD j 0 = if i = j ∧ j < l.length then v else l.getD j 0 := by
  induction l generalizing i j with
  | nil => simp
  | cons a l ih =>
    cases i with
    | zero =>
      cases j with
      | zero => simp
      | succ j => simp
    | succ i =>
      cases j with
      | zero => simp
      | succ j =>
        simp only [List.set_cons_succ, List.getD_cons_succ, ih, List.length_cons]
        exact if_congr (by omega) rfl rfl

theorem eq_of_getD : ∀ (l₁ l₂ : List Nat), l₁.length = l₂.length →
    (∀ j, l₁.getD j 0 = l₂.getD j 0) → l₁ = l₂
  | [], [], _, _ => rfl
  | [], _ :: _, hl, _ => by simp at hl
  | _ :: _, [], hl, _ => by simp at hl
  | a :: l₁, b :: l₂, hl, h => by
    have h0 := h 0
    simp only [List.getD_cons_zero] at h0
    have ht := eq_of_getD l₁ l₂ (by simpa using hl) (fun j => by simpa using h (j + 1))
    rw [h0, ht]

theorem bumpFrom_length : ∀ (fuel : Nat) (cm : List Nat) (i : Nat),
    ((bumpFrom cm i fuel).1).length = cm.length
  | 0, _, _ => rfl
  | fuel + 1, cm, i => by
    simp only [bumpFrom]
    split
    · rw [bumpFrom_length fuel]
      simp
    · rfl

theorem bumpFrom_ok : ∀ (fuel : Nat) (cm : List Nat) (i : Nat),
    i + fuel ≤ cm.length → (bumpFrom cm i fuel).2 = true
  | 0, _, _, _ => rfl
  | fuel + 1, cm, i, h => by
    have hi : i < cm.length := by omega
    simp only [bumpFrom, if_pos hi]
    exact bumpFrom_ok fuel _ (i + 1) (by rw [List.length_set]; omega)

theorem bumpFrom_getD : ∀ (fuel : Nat) (cm : List Nat) (i : Nat),
    i + fuel ≤ cm.length → ∀ j,
    ((bumpFrom cm i fuel).1).getD j 0 =
      cm.getD j 0 + if i ≤ j ∧ j < i + fuel then 1 else 0
  | 0, cm, i, _, j => by
    simp only [bumpFrom]
    rw [if_neg (by omega)]
    omega
  | fuel + 1, cm, i, h, j => by
    have hi : i < cm.length := by omega
    simp only [bumpFrom, if_pos hi]
    rw [bumpFrom_getD fuel _ (i + 1) (by rw [List.length_set]; omega) j, set_getD]
    by_cases hij : i = j
    · subst hij
      rw [if_pos ⟨rfl, hi⟩, if_neg (by omega), if_pos (by omega)]
    · rw [if_neg (by intro hc; exact hij hc.1)]
      rw [if_congr (show (i + 1 ≤ j ∧ j < i + 1 + fuel) ↔ (i ≤ j ∧ j < i + (fuel + 1)) by omega) rfl rfl]

theorem bumpFrom_fail : ∀ (fuel : Nat) (cm : List Nat) (i : Nat),
    cm.length < i + fuel → i ≤ cm.length →
    (bumpFrom cm i fuel).2 = false ∧
    ∀ j, ((bumpFrom cm i fuel).1).getD j 0 =
      cm.getD j 0 + if i ≤ j ∧ j < cm.length then 1 else 0
  | 0, _, i, h1, h2 => absurd h1 (by omega)
  | fuel + 1, cm, i, h1, h2 => by
    by_cases hi : i < cm.length
    · simp only [bumpFrom, if_pos hi]
      obtain ⟨hf, hg⟩ := bumpFrom_fail fuel (cm.set i (cm.getD i 0 + 1)) (i + 1)
        (by rw [List.length_set]; omega) (by rw [List.length_set]; omega)
      refine ⟨hf, fun j => ?_⟩
      rw [hg j, set_getD, List.length_set]
      by_cases hij : i = j
      · subst hij
        rw [if_pos ⟨rfl, hi⟩, if_neg (by omega), if_pos (by omega)]
      · rw [if_neg (by intro hc; exact hij hc.1)]
        rw [if_congr (show (i + 1 ≤ j ∧ j < cm.length) ↔ (i ≤ j ∧ j < cm.length) by omega) rfl rfl]
    · constructor
      · simp [bumpFrom, hi]
      · intro j
        simp only [bumpFrom, if_neg hi]
        rw [if_neg (by omega)]
        omega

theorem add_match_spec (t : Target) (m : Match) (h : m.stop ≤ t.coverage_map.length) :
    (t.add_match m).2 = true ∧
    (t.add_match m).1.«matches» = t.«matches» ++ [m] ∧
    (t.add_match m).1.coverage_map.length = t.coverage_map.length ∧
    (t.add_match m).1.id = t.id ∧
    (t.add_match m).1.length = t.length ∧
    ∀ j, (t.add_match m).1.coverage_map.getD j 0 =
      t.coverage_map.getD j 0 + if m.start ≤ j ∧ j < m.stop then 1 else 0 := by
  have hok : (bumpFrom t.coverage_map m.start (m.stop - m.start)).2 = true := by
    by_cases hse : m.start ≤ m.stop
    · exact bumpFrom_ok _ _ _ (by omega)
    · have h0 : m.stop - m.start = 0 := by omega
      rw [h0]
      rfl
  have hget : ∀ j, (bumpFrom t.coverage_map m.start (m.stop - m.start)).1.getD j 0 =
      t.coverage_map.getD j 0 + if m.start ≤ j ∧ j < m.stop then 1 else 0 := by
    intro j
    by_cases hse : m.start ≤ m.stop
    · rw [bumpFrom_getD _ _ _ (by omega) j]
      rw [if_congr (show (m.start ≤ j ∧ j < m.start + (m.stop - m.start)) ↔
        (m.start ≤ j ∧ j < m.stop) by omega) rfl rfl]
    · have h0 : m.stop - m.start = 0 := by omega
      rw [h0]
      simp only [bumpFrom]
      rw [if_neg (by omega)]
      omega
  unfold Target.add_match
  simp only [hok, if_true]
  exact ⟨trivial, trivial, bumpFrom_length _ _ _, trivial, trivial, hget⟩

theorem replicate_getD_zero (n j : Nat) : (List.replicate n (0 : Nat)).getD j 0 = 0 := by
  by_cases h : j < n
  · rw [List.getD_eq_getElem _ _ (by simpa using h)]
    simp
  · rw [List.getD_eq_default _ _ (by simpa using h)]

theorem applyMatches_spec : ∀ (ms : List Match) (t : Target),
    (∀ m ∈ ms, m.stop ≤ t.coverage_map.length) →
    (applyMatches t ms).«matches» = t.«matches» ++ ms ∧
    (applyMatches t ms).coverage_map.length = t.coverage_map.length ∧
    (applyMatches t ms).id = t.id ∧
    (applyMatches t ms).length = t.length ∧
    ∀ j, (applyMatches t ms).coverage_map.getD j 0 =
      t.coverage_map.getD j 0 + ms.countP (fun m => decide (m.start ≤ j ∧ j < m.stop))
  | [], t, _ => by simp [applyMatches]
  | m :: ms, t, h => by
    obtain ⟨hok, hmat, hlen, hid, hlf, hget⟩ := add_match_spec t m (h m (by simp))
    obtain ⟨i1, i2, i3, i4, i5⟩ := applyMatches_spec ms (t.add_match m).1
      (fun x hx => by rw [hlen]; exact h x (List.mem_cons_of_mem _ hx))
    have hstep : applyMatches t (m :: ms) = applyMatches (t.add_match m).1 ms := by
      simp [applyMatches]
    rw [hstep]
    refine ⟨?_, ?_, ?_, ?_, fun j => ?_⟩
    · rw [i1, hmat]
      simp
    · rw [i2, hlen]
    · rw [i3, hid]
    · rw [i4, hlf]
    · rw [i5 j, hget j, List.countP_cons]
      by_cases hc : m.start ≤ j ∧ j < m.stop
      · rw [if_pos hc, decide_eq_true hc, if_pos rfl]
        omega
      · rw [if_neg hc]
        have : decide (m.start ≤ j ∧ j < m.stop) = false := by
          simpa using hc
        rw [this, if_neg Bool.false_ne_true]
        omega

theorem add_matches_eq : ∀ (ms : List Match) (t : Target),
    (∀ m ∈ ms, m.stop ≤ t.coverage_map.length) →
    t.add_matches ms = (applyMatches t ms, true)
  | [], _, _ => rfl
  | m :: ms, t, h => by
    obtain ⟨hok, _, hlen, _⟩ := add_match_spec t m (h m (by simp))
    have hstep : applyMatches t (m :: ms) = applyMatches (t.add_match m).1 ms := by
      simp [applyMatches]
    unfold Target.add_matches
    simp only [hok, if_true]
    rw [add_matches_eq ms (t.add_match m).1
      (fun x hx => by rw [hlen]; exact h x (List.mem_cons_of_mem _ hx)), hstep]

theorem foldl_count (l : List Nat) (n : Nat) :
    l.foldl (fun acc i => if i > 0 then acc + 1 else acc) n =
      n + l.countP (fun i => decide (0 < i)) := by
  induction l generalizing n with
  | nil => simp
  | cons a l ih =>
    simp only [List.foldl_cons, List.countP_cons, ih]
    by_cases h : 0 < a
    · rw [if_pos h, decide_eq_true h, if_pos rfl]
      omega
    · rw [if_neg h]
      have : decide (0 < a) = false := by simpa using h
      rw [this, if_neg Bool.false_ne_true]
      omega

theorem matchRows_eq (ms : List Match) (i stop : Nat) :
    matchRows ms i stop =
      (ms.filter (fun m => !((sliceList m.align_seq i stop).all (fun c => c == '-')))).map
        (fun m => String.mk (sliceList m.align_seq i stop)) := by
  induction ms with
  | nil => rfl
  | cons m rest ih =>
    by_cases h : (sliceList m.align_seq i stop).all (fun c => c == '-') = true
    · simp [matchRows, h, List.filter_cons, ih]
    · have hb : (sliceList m.align_seq i stop).all (fun c => c == '-') = false := by
        simpa using h
      simp [matchRows, hb, List.filter_cons, ih]

theorem parse_step_malformed (f : String) (lim : Nat) (st : PafState) (line : String)
    (h1 : st.failed_rows ≤ ROW_FAILURE_LIMIT)
    (h2 : (splitTab line.toList).length < PAF_ROWS) :
    parse_step f lim st line =
      .ok { st with row_index := st.row_index + 1, failed_rows := st.failed_rows + 1 } := by
  simp only [parse_step]
  rw [if_neg (by simp only [gt_iff_lt]; omega)]
  unfold classify
  rw [if_pos h2]

theorem parse_step_breaker (f : String) (lim : Nat) (st : PafState) (line : String)
    (h1 : ROW_FAILURE_LIMIT < st.failed_rows) :
    parse_step f lim st line = .error (.tooManyFailed f) := by
  simp only [parse_step]
  rw [if_pos (by simp only [gt_iff_lt]; omega)]

theorem parse_lines_malformed_ok : ∀ (ls : List String) (f : String) (lim : Nat) (st : PafState),
    (∀ l ∈ ls, (splitTab l.toList).length < PAF_ROWS) →
    st.failed_rows + ls.length ≤ ROW_FAILURE_LIMIT + 1 →
    parse_lines f lim st ls =
      .ok { st with row_index := st.row_index + ls.length,
                    failed_rows := st.failed_rows + ls.length }
  | [], _, _, st, _, _ => by simp [parse_lines]
  | l :: ls, f, lim, st, h, hle => by
    have hstep := parse_step_malformed f lim st l (by simp at hle; omega) (h l (by simp))
    have hrec := parse_lines_malformed_ok ls f lim
      { st with row_index := st.row_index + 1, failed_rows := st.failed_rows + 1 }
      (fun x hx => h x (by simp [hx])) (by simp at hle ⊢; omega)
    calc parse_lines f lim st (l :: ls)
        = parse_lines f lim
            { st with row_index := st.row_index + 1, failed_rows := st.failed_rows + 1 } ls := by
          simp only [parse_lines]
          rw [hstep]
      _ = _ := by
          rw [hrec]
          simp [PafState.mk.injEq]
          omega

theorem parse_lines_malformed_err : ∀ (ls : List String) (f : String) (lim : Nat) (st : PafState),
    (∀ l ∈ ls, (splitTab l.toList).length < PAF_ROWS) →
    st.failed_rows ≤ ROW_FAILURE_LIMIT + 1 →
    ROW_FAILURE_LIMIT + 2 ≤ st.failed_rows + ls.length →
    parse_lines f lim st ls = .error (.tooManyFailed f)
  | [], _, _, st, _, h1, h2 => by
    simp only [List.length_nil, ROW_FAILURE_LIMIT] at h1 h2
    omega
  | l :: ls, f, lim, st, h, h1, h2 => by
    by_cases hb : ROW_FAILURE_LIMIT < st.failed_rows
    · simp only [parse_lines]
      rw [parse_step_breaker f lim st l hb]
    · have hstep := parse_step_malformed f lim st l (by omega) (h l (by simp))
      calc parse_lines f lim st (l :: ls)
          = parse_lines f lim
              { st with row_index := st.row_index + 1, failed_rows := st.failed_rows + 1 } ls := by
            simp only [parse_lines]
            rw [hstep]
        _ = .error (.tooManyFailed f) :=
            parse_lines_malformed_err ls f lim _
              (fun x hx => h x (by simp [hx]))
              (by simp only [ROW_FAILURE_LIMIT] at hb ⊢; omega)
              (by simp only [List.length_cons, ROW_FAILURE_LIMIT] at h2 ⊢; omega)

/-! ### Claim theorems -/

/-- C1: a line that passes all four filter checks does not produce a
`Match` appended to the matching target without error: on this accepted
line (13 tab-separated fields, cs string `":5"`, full query mapping, 0
mismatches, target `"t"` pre-registered with length 10) `parse_paf`
raises `TypeError` at row 1, because `parse_paf` calls
`Match(query_name, target_start, target_end, cs_map)` with 4 positional
arguments while `Match.__init__` requires 6. -/
theorem C1_accepted_line_raises_type_error :
    parse_paf "aligned.paf" 8
      [("t", Target.init "t" "t" "ACGTACGTAC".toList)]
      ["q\t5\t0\t5\t+\tt\t10\t2\t7\t5\t5\t60\tcs:Z::5"] =
    .error (.typeError 1) := rfl

/-- C2: decoding the difference string `":5*ac:3"` with `map_mismatches`
does NOT yield 5 MATCH, 1 MISMATCH, 3 MATCH (9 symbols): the leading
empty token produced by splitting `":5*ac:3"` at its first `:` fails
`int("")` and appends a spurious `"0"` (MISMATCH) chunk before the first
run, so the decoder returns `["0", "11111", "0", "111"]` — 10 per-base
symbols with a MISMATCH before the first run. -/
theorem C2_decoder_emits_leading_mismatch :
    map_mismatches ":5*ac:3".toList =
      [['0'], ['1', '1', '1', '1', '1'], ['0'], ['1', '1', '1']] ∧
    (List.flatten (map_mismatches ":5*ac:3".toList)).length = 10 :=
  ⟨rfl, rfl⟩

/-- C7: any line with fewer than 12 tab-separated fields is classified
`malformed` — regardless of the rest of its content, so before the
indel/partial-mapping/mismatch checks, none of which is reached — and the
parse step increments `failed_rows` by 1 while leaving `dropped_rows`
(and everything else) unchanged. -/
theorem C7_short_row_malformed_first (f : String) (lim : Nat) (st : PafState)
    (line : String)
    (h1 : st.failed_rows ≤ ROW_FAILURE_LIMIT)
    (h2 : (splitTab line.toList).length < PAF_ROWS) :
    classify lim (splitTab line.toList) = .malformed ∧
    parse_step f lim st line =
      .ok { st with row_index := st.row_index + 1, failed_rows := st.failed_rows + 1 } := by
  constructor
  · unfold classify
    rw [if_pos h2]
  · exact parse_step_malformed f lim st line h1 h2

/-- C7 witness: the two-field line `"q\tx"` is malformed and only the
failed-rows counter moves. -/
theorem C7_short_row_malformed_first_witness :
    ((0 : Nat) ≤ ROW_FAILURE_LIMIT ∧ (splitTab "q\tx".toList).length < PAF_ROWS) ∧
    (classify 8 (splitTab "q\tx".toList) = .malformed ∧
     parse_step "f.paf" 8
        { row_index := 0, failed_rows := 0, dropped_rows := 0, targets := [] } "q\tx" =
      .ok { row_index := 1, failed_rows := 1, dropped_rows := 0, targets := [] }) :=
  ⟨⟨by decide, by decide⟩,
   C7_short_row_malformed_first "f.paf" 8
     { row_index := 0, failed_rows := 0, dropped_rows := 0, targets := [] } "q\tx"
     (by decide) (by decide)⟩

/-- C3 counterexample: a run that has seen 101 malformed rows does NOT
abort — the breaker `if failed_rows > ROW_FAILURE_LIMIT` is tested before
processing the next line, so a file of exactly 101 malformed rows
completes with `failed_rows = 101`. -/
theorem C3_counterexample_101_rows_complete :
    parse_paf "reads.paf" 8 [] (List.replicate 101 "x") =
      .ok { row_index := 101, failed_rows := 101, dropped_rows := 0, targets := [] } := rfl

/-- C3 (amended): the breaker fires only when a line is processed after
the malformed count already exceeds 100.  For all-malformed input: 101 or
fewer rows complete with every row counted in `failed_rows`; 102 or more
rows abort with the fatal error naming the file.  In particular exactly
100 malformed rows complete and report 100. -/
theorem C3_circuit_breaker_amended (f : String) (lim : Nat)
    (tg : List (String × Target)) (lines : List String)
    (hml : ∀ l ∈ lines, (splitTab l.toList).length < PAF_ROWS) :
    (lines.length ≤ ROW_FAILURE_LIMIT + 1 →
      parse_paf f lim tg lines =
        .ok { row_index := lines.length, failed_rows := lines.length,
              dropped_rows := 0, targets := tg }) ∧
    (ROW_FAILURE_LIMIT + 2 ≤ lines.length →
      parse_paf f lim tg lines = .error (.tooManyFailed f)) := by
  constructor
  · intro hle
    unfold parse_paf
    rw [parse_lines_malformed_ok lines f lim _ hml (by simpa using hle)]
    simp
  · intro hge
    exact parse_lines_malformed_err lines f lim _ hml
      (by simp [ROW_FAILURE_LIMIT]) (by simpa using hge)

/-- C3 witness: 100 malformed rows complete reporting 100; 102 malformed
rows abort naming the file. -/
theorem C3_circuit_breaker_witness :
    (∀ l ∈ List.replicate 100 "x", (splitTab l.toList).length < PAF_ROWS) ∧
    parse_paf "reads.paf" 8 [] (List.replicate 100 "x") =
      .ok { row_index := 100, failed_rows := 100, dropped_rows := 0, targets := [] } ∧
    parse_paf "reads.paf" 8 [] (List.replicate 102 "x") =
      .error (.tooManyFailed "reads.paf") :=
  ⟨by decide,
   (C3_circuit_breaker_amended "reads.paf" 8 [] (List.replicate 100 "x") (by decide)).1
     (by decide),
   (C3_circuit_breaker_amended "reads.paf" 8 [] (List.replicate 102 "x") (by decide)).2
     (by decide)⟩

/-- C4 counterexample: a line passing all four filter checks whose
decoded symbol count (5) differs from `target_end - target_start` (7) is
NOT classified `MalformedRow`: it is classified accepted, and the run
then crashes with the accept-path `TypeError` — the malformed counter is
never incremented and no length check exists. -/
theorem C4_counterexample_length_mismatch_accepted :
    classify 8 (splitTab "q\t4\t0\t4\t+\tt\t10\t2\t9\t4\t4\t60\tcs:Z::4".toList) =
      .accepted ['q'] ['t'] 2 9 [':', '4'] ∧
    (List.flatten (map_mismatches [':', '4'])).length = 5 ∧
    ((9 : Int) - 2 ≠ 5) ∧
    parse_paf "f.paf" 8 [] ["q\t4\t0\t4\t+\tt\t10\t2\t9\t4\t4\t60\tcs:Z::4"] =
      .error (.typeError 1) :=
  ⟨rfl, rfl, by decide, rfl⟩

/-- C4 (amended): `parse_paf` performs no decoded-length validation.
Every line that passes the four filter checks (12+ fields, parseable
numeric fields, no indel, full query mapping, mismatch count within
threshold) is classified accepted — no hypothesis relates the decoded
symbol count to `target_end - target_start` — and the parse step then
raises the accept-path `TypeError` without touching the malformed
counter. -/
theorem C4_no_length_check_amended (f : String) (lim : Nat) (st : PafState)
    (line : String) (q_len q_start q_end t_start t_end : Int)
    (hfail : st.failed_rows ≤ ROW_FAILURE_LIMIT)
    (hcols : PAF_ROWS ≤ (splitTab line.toList).length)
    (h1 : pyInt? ((splitTab line.toList).getD 1 []) = some q_len)
    (h2 : pyInt? ((splitTab line.toList).getD 2 []) = some q_start)
    (h3 : pyInt? ((splitTab line.toList).getD 3 []) = some q_end)
    (h7 : pyInt? ((splitTab line.toList).getD 7 []) = some t_start)
    (h8 : pyInt? ((splitTab line.toList).getD 8 []) = some t_end)
    (hind : hasIndel (((splitTab line.toList).getLastD []).drop 5) = false)
    (hqs : q_start = 0) (hql : q_len = q_end)
    (hmm : (((splitTab line.toList).getLastD []).drop 5).count '*' ≤ lim) :
    classify lim (splitTab line.toList) =
      .accepted ((splitTab line.toList).getD 0 []) ((splitTab line.toList).getD 5 [])
        t_start t_end (((splitTab line.toList).getLastD []).drop 5) ∧
    parse_step f lim st line = .error (.typeError (st.row_index + 1)) := by
  have hcl : classify lim (splitTab line.toList) =
      .accepted ((splitTab line.toList).getD 0 []) ((splitTab line.toList).getD 5 [])
        t_start t_end (((splitTab line.toList).getLastD []).drop 5) := by
    unfold classify
    rw [if_neg (by omega)]
    simp only [h1, h2, h3, h7, h8]
    rw [hind, if_neg Bool.false_ne_true]
    rw [if_neg (by
      intro hcon
      rcases hcon with hcon | hcon
      · exact hcon hqs
      · exact hcon hql)]
    rw [if_neg (by omega)]
  refine ⟨hcl, ?_⟩
  simp only [parse_step]
  rw [if_neg (by simp only [gt_iff_lt]; omega)]
  rw [hcl]

/-- C4 witness: concrete accepted line with decoded length 5 against a
declared interval of length 7. -/
theorem C4_no_length_check_witness :
    (pyInt? ((splitTab "q\t4\t0\t4\t+\tt\t10\t2\t9\t4\t4\t60\tcs:Z::4".toList).getD 1 []) =
      some 4) ∧
    (classify 8 (splitTab "q\t4\t0\t4\t+\tt\t10\t2\t9\t4\t4\t60\tcs:Z::4".toList) =
      .accepted ['q'] ['t'] 2 9 [':', '4'] ∧
     parse_step "f.paf" 8
        { row_index := 0, failed_rows := 0, dropped_rows := 0, targets := [] }
        "q\t4\t0\t4\t+\tt\t10\t2\t9\t4\t4\t60\tcs:Z::4" =
      .error (.typeError 1)) :=
  ⟨by decide,
   C4_no_length_check_amended "f.paf" 8
     { row_index := 0, failed_rows := 0, dropped_rows := 0, targets := [] }
     "q\t4\t0\t4\t+\tt\t10\t2\t9\t4\t4\t60\tcs:Z::4" 4 0 4 2 9
     (by decide) (by decide) (by decide) (by decide) (by decide) (by decide)
     (by decide) (by decide) (by decide) (by decide) (by decide)⟩

/-- C5: for an in-bounds match (`start ≤ end ≤ target length`, with the
coverage map well-formed), `add_match` succeeds, increments `depth[i]` by
exactly 1 for `i ∈ [start, end)` and leaves every other position
unchanged, appends the match to `matches`; and after any sequence of
in-bounds `add_match` calls starting from a freshly constructed target
the invariant `depth[i] = #{m ∈ matches | m.start ≤ i < m.end}` holds. -/
theorem C5_add_match_depth_invariant
    (t : Target) (m : Match) (id name : String) (seq : List Char) (ms : List Match)
    (hwf : t.coverage_map.length = t.length)
    (hse : m.start ≤ m.stop) (hle : m.stop ≤ t.length)
    (hms : ∀ x ∈ ms, x.start ≤ x.stop ∧ x.stop ≤ seq.length) :
    (t.add_match m).2 = true ∧
    (t.add_match m).1.«matches» = t.«matches» ++ [m] ∧
    (∀ j, (t.add_match m).1.coverage_map.getD j 0 =
      t.coverage_map.getD j 0 + if m.start ≤ j ∧ j < m.stop then 1 else 0) ∧
    depthOk (applyMatches (Target.init id name seq) ms) := by
  obtain ⟨a1, a2, _, _, _, a6⟩ := add_match_spec t m (by omega)
  refine ⟨a1, a2, a6, ?_⟩
  obtain ⟨b1, _, _, _, b5⟩ := applyMatches_spec ms (Target.init id name seq)
    (fun x hx => by simpa [Target.init] using (hms x hx).2)
  intro j
  rw [b5 j, b1]
  simp [Target.init, replicate_getD_zero]

/-- C5 witness: a length-10 target and the match `[2, 5)`. -/
theorem C5_add_match_depth_invariant_witness :
    ((Match.init "q" (List.replicate 3 'A') 2 5 10 []).start ≤
        (Match.init "q" (List.replicate 3 'A') 2 5 10 []).stop ∧
     (Match.init "q" (List.replicate 3 'A') 2 5 10 []).stop ≤
        (Target.init "chrT" "chrT" (List.replicate 10 'A')).length) ∧
    (((Target.init "chrT" "chrT" (List.replicate 10 'A')).add_match
        (Match.init "q" (List.replicate 3 'A') 2 5 10 [])).2 = true ∧
     ((Target.init "chrT" "chrT" (List.replicate 10 'A')).add_match
        (Match.init "q" (List.replicate 3 'A') 2 5 10 [])).1.«matches» =
       (Target.init "chrT" "chrT" (List.replicate 10 'A')).«matches» ++
         [Match.init "q" (List.replicate 3 'A') 2 5 10 []] ∧
     (∀ j, ((Target.init "chrT" "chrT" (List.replicate 10 'A')).add_match
        (Match.init "q" (List.replicate 3 'A') 2 5 10 [])).1.coverage_map.getD j 0 =
       (Target.init "chrT" "chrT" (List.replicate 10 'A')).coverage_map.getD j 0 +
         if (Match.init "q" (List.replicate 3 'A') 2 5 10 []).start ≤ j ∧
            j < (Match.init "q" (List.replicate 3 'A') 2 5 10 []).stop then 1 else 0) ∧
     depthOk (applyMatches (Target.init "chrT" "chrT" (List.replicate 10 'A'))
        [Match.init "q" (List.replicate 3 'A') 2 5 10 []])) :=
  ⟨⟨by decide, by decide⟩,
   C5_add_match_depth_invariant
     (Target.init "chrT" "chrT" (List.replicate 10 'A'))
     (Match.init "q" (List.replicate 3 'A') 2 5 10 [])
     "chrT" "chrT" (List.replicate 10 'A')
     [Match.init "q" (List.replicate 3 'A') 2 5 10 []]
     rfl (by decide) (by decide) (by decide)⟩

/-- C6: for in-bounds matches, `add_matches` equals the fold of
`add_match` (batch = one-at-a-time) and succeeds, and the final coverage
map is identical for every permutation of the match list. -/
theorem C6_add_matches_order_invariant
    (t : Target) (ms ms2 : List Match)
    (hwf : t.coverage_map.length = t.length)
    (hms : ∀ m ∈ ms, m.stop ≤ t.length)
    (hperm : ms.Perm ms2) :
    t.add_matches ms = (applyMatches t ms, true) ∧
    (t.add_matches ms).1.coverage_map = (t.add_matches ms2).1.coverage_map := by
  have hms' : ∀ m ∈ ms, m.stop ≤ t.coverage_map.length := fun m hm => by
    rw [hwf]
    exact hms m hm
  have hms2 : ∀ m ∈ ms2, m.stop ≤ t.coverage_map.length := fun m hm =>
    hms' m (hperm.mem_iff.mpr hm)
  refine ⟨add_matches_eq ms t hms', ?_⟩
  rw [add_matches_eq ms t hms', add_matches_eq ms2 t hms2]
  obtain ⟨_, l1, _, _, g1⟩ := applyMatches_spec ms t hms'
  obtain ⟨_, l2, _, _, g2⟩ := applyMatches_spec ms2 t hms2
  refine eq_of_getD _ _ (l1.trans l2.symm) (fun j => ?_)
  rw [g1 j, g2 j, hperm.countP_eq]

/-- C6 witness: two overlapping matches on a length-6 target, applied in
both orders. -/
theorem C6_add_matches_order_invariant_witness :
    ((∀ m ∈ [Match.init "a" (List.replicate 4 'A') 0 4 6 [],
             Match.init "b" (List.replicate 4 'C') 2 6 6 []],
        m.stop ≤ (Target.init "t6" "t6" (List.replicate 6 'G')).length) ∧
     [Match.init "a" (List.replicate 4 'A') 0 4 6 [],
      Match.init "b" (List.replicate 4 'C') 2 6 6 []].Perm
       [Match.init "b" (List.replicate 4 'C') 2 6 6 [],
        Match.init "a" (List.replicate 4 'A') 0 4 6 []]) ∧
    ((Target.init "t6" "t6" (List.replicate 6 'G')).add_matches
        [Match.init "a" (List.replicate 4 'A') 0 4 6 [],
         Match.init "b" (List.replicate 4 'C') 2 6 6 []] =
      (applyMatches (Target.init "t6" "t6" (List.replicate 6 'G'))
        [Match.init "a" (List.replicate 4 'A') 0 4 6 [],
         Match.init "b" (List.replicate 4 'C') 2 6 6 []], true) ∧
     ((Target.init "t6" "t6" (List.replicate 6 'G')).add_matches
        [Match.init "a" (List.replicate 4 'A') 0 4 6 [],
         Match.init "b" (List.replicate 4 'C') 2 6 6 []]).1.coverage_map =
       ((Target.init "t6" "t6" (List.replicate 6 'G')).add_matches
        [Match.init "b" (List.replicate 4 'C') 2 6 6 [],
         Match.init "a" (List.replicate 4 'A') 0 4 6 []]).1.coverage_map) :=
  ⟨⟨by decide, by decide⟩,
   C6_add_matches_order_invariant
     (Target.init "t6" "t6" (List.replicate 6 'G'))
     [Match.init "a" (List.replicate 4 'A') 0 4 6 [],
      Match.init "b" (List.replicate 4 'C') 2 6 6 []]
     [Match.init "b" (List.replicate 4 'C') 2 6 6 [],
      Match.init "a" (List.replicate 4 'A') 0 4 6 []]
     rfl (by decide) (by decide)⟩

/-- C8: for a well-formed target of positive length, `print_coverage`
reports covered = the number of positions with positive depth, the
percentage `covered / length` and the average `sum(depth) / length`, both
rendered to two decimal places, in the format
`Total coverage for <id>: <covered>/<length> bp covered (<pct>%), Avg: <avg>`. -/
theorem C8_print_coverage_summary (t : Target)
    (hwf : t.coverage_map.length = t.length) (hpos : 0 < t.length) :
    t.print_coverage =
      "Total coverage for " ++ t.id ++ ": " ++
        toString (t.coverage_map.countP (fun i => decide (0 < i))) ++ "/" ++
        toString t.length ++ " bp covered (" ++
        fmtDiv2 (100 * (t.coverage_map.countP (fun i => decide (0 < i)) : Int))
          (t.length : Int) ++
        "%), Avg: " ++
        fmtDiv2 ((t.coverage_map.sum : Int)) ((t.length : Int)) := by
  simp only [Target.print_coverage]
  simp only [foldl_count, hwf]
  simp only [Nat.zero_add]

/-- C8 witness: the spec's coverage-arithmetic example — depth
`[0,0,1,1,1,0,0,0,0,0]` on a length-10 target renders covered 3 of 10,
30.00 percent, average 0.30. -/
theorem C8_print_coverage_summary_witness :
    (0 : Nat) < 10 ∧
    Target.print_coverage
        { id := "t", name := "t", seq := List.replicate 10 'A', length := 10,
          coverage_map := [0, 0, 1, 1, 1, 0, 0, 0, 0, 0], «matches» := [] } =
      "Total coverage for t: 3/10 bp covered (30.00%), Avg: 0.30" :=
  ⟨by decide,
   (C8_print_coverage_summary
      { id := "t", name := "t", seq := List.replicate 10 'A', length := 10,
        coverage_map := [0, 0, 1, 1, 1, 0, 0, 0, 0, 0], «matches» := [] }
      rfl (by decide)).trans (by decide)⟩

theorem align_getD (seq : List Char) (start stop target_len : Nat) (i : Nat)
    (hse : start ≤ stop) (hst : stop ≤ target_len) (hlen : seq.length = stop - start)
    (hi : i < target_len) :
    (List.replicate start '-' ++ seq ++ List.replicate (target_len - stop) '-').getD i '-' =
      if start ≤ i ∧ i < stop then seq.getD (i - start) '-' else '-' := by
  by_cases hlt : i < start
  · rw [List.getD_append _ _ _ _ (by simp [List.length_append]; omega),
      List.getD_append _ _ _ _ (by simpa using hlt), if_neg (by omega)]
    rw [List.getD_eq_getElem _ _ (by simpa using hlt)]
    simp
  · by_cases h2 : i < stop
    · rw [List.getD_append _ _ _ _ (by simp [List.length_append]; omega),
        List.getD_append_right _ _ _ _ (by simpa using hlt)]
      rw [if_pos ⟨by omega, h2⟩]
      simp
    · rw [List.getD_append_right _ _ _ _ (by simp [List.length_append]; omega),
        if_neg (by omega)]
      rw [List.getD_eq_getElem _ _ (by simp [List.length_append]; omega)]
      simp

/-- C9: (a) for a match whose symbol sequence has length `end - start`
(with `start ≤ end ≤ target_len`), the reconstructed track `align_seq`
has length `target_len` and holds the sequence's symbol at every position
of `[start, end)` and the filler `'-'` everywhere else; (b) for
`columns > 0` the positional render consists of the header followed, per
block, by the contributing alignment tracks in `matches` insertion order
(tracks that are all filler in the block are skipped), then the depth
row, then the target-sequence row, then a blank separator line. -/
theorem C9_align_padding_and_render_order
    (seq_id : String) (seq : List Char) (start stop target_len : Nat)
    (mm : List (List Char)) (t : Target) (c : Nat)
    (hse : start ≤ stop) (hst : stop ≤ target_len) (hlen : seq.length = stop - start)
    (hc : 0 < c) :
    (Match.init seq_id seq start stop target_len mm).align_seq.length = target_len ∧
    (∀ i, i < target_len →
      (Match.init seq_id seq start stop target_len mm).align_seq.getD i '-' =
        if start ≤ i ∧ i < stop then seq.getD (i - start) '-' else '-') ∧
    t.print_coverage_map c =
      ("Coverage map for target " ++ t.id ++ ":") ::
        ((blockStarts t.coverage_map.length c).map (fun i =>
          ((t.«matches».filter (fun m =>
              !((sliceList m.align_seq i (min (i + c) t.coverage_map.length)).all
                (fun ch => ch == '-')))).map
            (fun m => String.mk (sliceList m.align_seq i (min (i + c) t.coverage_map.length)))) ++
          [String.join ((sliceList t.coverage_map i (min (i + c) t.coverage_map.length)).map
              (fun n => toString n)),
           String.mk (sliceList t.seq i (min (i + c) t.coverage_map.length)),
           ""])).flatten := by
  refine ⟨?_, fun i hi => ?_, ?_⟩
  · simp only [Match.init, List.length_append, List.length_replicate]
    omega
  · simp only [Match.init]
    exact align_getD seq start stop target_len i hse hst hlen hi
  · unfold Target.print_coverage_map blockRows
    simp only [matchRows_eq]

/-- C9 witness: target of length 4 with one match `[1, 3)` rendered in
blocks of 2 columns. -/
theorem C9_align_padding_and_render_order_witness :
    ((1 : Nat) ≤ 3 ∧ (3 : Nat) ≤ 4 ∧ "AC".toList.length = 3 - 1 ∧ (0 : Nat) < 2) ∧
    ((Match.init "q" "AC".toList 1 3 4 []).align_seq.length = 4 ∧
     (∀ i, i < 4 →
       (Match.init "q" "AC".toList 1 3 4 []).align_seq.getD i '-' =
         if 1 ≤ i ∧ i < 3 then "AC".toList.getD (i - 1) '-' else '-') ∧
     Target.print_coverage_map
        { id := "t9", name := "t9", seq := "ACGT".toList, length := 4,
          coverage_map := [0, 1, 1, 0],
          «matches» := [Match.init "q" "AC".toList 1 3 4 []] } 2 =
      ("Coverage map for target " ++
          ({ id := "t9", name := "t9", seq := "ACGT".toList, length := 4,
             coverage_map := [0, 1, 1, 0],
             «matches» := [Match.init "q" "AC".toList 1 3 4 []]} : Target).id ++ ":") ::
        ((blockStarts 4 2).map (fun i =>
          ((([Match.init "q" "AC".toList 1 3 4 []]).filter (fun m =>
              !((sliceList m.align_seq i (min (i + 2) 4)).all
                (fun ch => ch == '-')))).map
            (fun m => String.mk (sliceList m.align_seq i (min (i + 2) 4)))) ++
          [String.join ((sliceList [0, 1, 1, 0] i (min (i + 2) 4)).map
              (fun n => toString n)),
           String.mk (sliceList "ACGT".toList i (min (i + 2) 4)),
           ""])).flatten) :=
  ⟨⟨by decide, by decide, by decide, by decide⟩,
   C9_align_padding_and_render_order "q" "AC".toList 1 3 4 []
     { id := "t9", name := "t9", seq := "ACGT".toList, length := 4,
       coverage_map := [0, 1, 1, 0],
       «matches» := [Match.init "q" "AC".toList 1 3 4 []] } 2
     (by decide) (by decide) (by decide) (by decide)⟩

/-- C10 counterexample: the claim fails at `start = length`: on the
empty-sequence target (length 0) and a match `[0, 1)` — which satisfies
`0 ≤ start ≤ length < end` — `add_match` raises the out-of-bounds error
before any increment, so the target is NOT left in a mutated state and
the depth/matches invariant still holds afterwards. -/
theorem C10_counterexample_boundary_no_mutation :
    (Match.init "q" [] 0 1 0 []).start ≤ (Target.init "e" "e" []).length ∧
    (Target.init "e" "e" []).length < (Match.init "q" [] 0 1 0 []).stop ∧
    ((Target.init "e" "e" []).add_match (Match.init "q" [] 0 1 0 [])).2 = false ∧
    ((Target.init "e" "e" []).add_match (Match.init "q" [] 0 1 0 [])).1.coverage_map =
      (Target.init "e" "e" []).coverage_map ∧
    ((Target.init "e" "e" []).add_match (Match.init "q" [] 0 1 0 [])).1.«matches» =
      (Target.init "e" "e" []).«matches» ∧
    depthOk ((Target.init "e" "e" []).add_match (Match.init "q" [] 0 1 0 [])).1 := by
  refine ⟨by decide, by decide, by decide, by decide, by decide, fun i => ?_⟩
  cases i <;> rfl

/-- C10 (amended): for a well-formed target and a match with
`start ≤ length < end`, `add_match` fails with the out-of-bounds error
after incrementing `depth[i]` for every in-bounds `i ∈ [start, length)`,
and the match is not appended; when additionally `start < length`, a
target that satisfied the depth/matches invariant is left in a partially
mutated state that violates it. -/
theorem C10_add_match_not_atomic_amended
    (t : Target) (m : Match)
    (hwf : t.coverage_map.length = t.length)
    (h1 : m.start ≤ t.length) (h2 : t.length < m.stop) :
    (t.add_match m).2 = false ∧
    (t.add_match m).1.«matches» = t.«matches» ∧
    (∀ j, (t.add_match m).1.coverage_map.getD j 0 =
      t.coverage_map.getD j 0 + if m.start ≤ j ∧ j < t.length then 1 else 0) ∧
    (m.start < t.length → depthOk t → ¬ depthOk (t.add_match m).1) := by
  obtain ⟨hf, hg⟩ := bumpFrom_fail (m.stop - m.start) t.coverage_map m.start
    (by omega) (by omega)
  have hmain : t.add_match m =
      ({ t with coverage_map :=
          (bumpFrom t.coverage_map m.start (m.stop - m.start)).1 }, false) := by
    unfold Target.add_match
    simp only [hf]
    rw [if_neg Bool.false_ne_true]
  rw [hmain]
  refine ⟨rfl, rfl, fun j => ?_, fun hs hok hok2 => ?_⟩
  · have hgj := hg j
    rw [hwf] at hgj
    exact hgj
  · have e1 := hok2 m.start
    have e2 := hok m.start
    simp only [depthOk] at e1 e2
    rw [hg m.start, if_pos ⟨le_refl _, by omega⟩] at e1
    omega

/-- C10 witness: length-5 target, match `[2, 9)`. -/
theorem C10_add_match_not_atomic_amended_witness :
    ((Match.init "q" (List.replicate 7 'A') 2 9 5 []).start ≤
        (Target.init "t5" "t5" (List.replicate 5 'G')).length ∧
     (Target.init "t5" "t5" (List.replicate 5 'G')).length <
        (Match.init "q" (List.replicate 7 'A') 2 9 5 []).stop) ∧
    (((Target.init "t5" "t5" (List.replicate 5 'G')).add_match
        (Match.init "q" (List.replicate 7 'A') 2 9 5 [])).2 = false ∧
     ((Target.init "t5" "t5" (List.replicate 5 'G')).add_match
        (Match.init "q" (List.replicate 7 'A') 2 9 5 [])).1.«matches» =
       (Target.init "t5" "t5" (List.replicate 5 'G')).«matches» ∧
     (∀ j, ((Target.init "t5" "t5" (List.replicate 5 'G')).add_match
        (Match.init "q" (List.replicate 7 'A') 2 9 5 [])).1.coverage_map.getD j 0 =
       (Target.init "t5" "t5" (List.replicate 5 'G')).coverage_map.getD j 0 +
         if (Match.init "q" (List.replicate 7 'A') 2 9 5 []).start ≤ j ∧
            j < (Target.init "t5" "t5" (List.replicate 5 'G')).length then 1 else 0) ∧
     ((Match.init "q" (List.replicate 7 'A') 2 9 5 []).start <
        (Target.init "t5" "t5" (List.replicate 5 'G')).length →
      depthOk (Target.init "t5" "t5" (List.replicate 5 'G')) →
      ¬ depthOk ((Target.init "t5" "t5" (List.replicate 5 'G')).add_match
          (Match.init "q" (List.replicate 7 'A') 2 9 5 [])).1)) :=
  ⟨⟨by decide, by decide⟩,
   C10_add_match_not_atomic_amended
     (Target.init "t5" "t5" (List.replicate 5 'G'))
     (Match.init "q" (List.replicate 7 'A') 2 9 5 [])
     rfl (by decide) (by decide)⟩

end SimpleCoverage
